import Mathlib

/-!
Shallow embedding of the OPP-HAND particle system core: the shape target
generator (`utils/shapes.ts`), the gesture classifier
(`HandTracker.detectGesture`), and the per-frame particle physics step
(the `animate` loop of `components/ParticleCanvas.tsx`).

JavaScript numbers are modelled as exact reals extended with an absorbing
non-finite element `JSNum.nonfin` standing for NaN / ±Infinity, so the
unguarded `dx / dist` at a zero distance in the hand-interaction force is
represented faithfully (JS `0/0 = NaN`, and NaN propagates through
addition and multiplication, including `NaN * 0 = NaN`).
-/

noncomputable section

namespace OppHand

/-- A JavaScript number: either a finite real value or a non-finite value
(NaN or ±Infinity, collapsed into one absorbing element). -/
inductive JSNum where
  | fin : ℝ → JSNum
  | nonfin : JSNum

instance : DecidableEq JSNum := Classical.decEq _

/-- JS addition: finite on finite operands, non-finite otherwise. -/
def jadd : JSNum → JSNum → JSNum
  | .fin a, .fin b => .fin (a + b)
  | _, _ => .nonfin

/-- JS subtraction. -/
def jsub : JSNum → JSNum → JSNum
  | .fin a, .fin b => .fin (a - b)
  | _, _ => .nonfin

/-- JS multiplication.  `nonfin` absorbs: NaN times anything is NaN, and
`Infinity * 0 = NaN`, so a non-finite operand always yields a non-finite
result. -/
def jmul : JSNum → JSNum → JSNum
  | .fin a, .fin b => .fin (a * b)
  | _, _ => .nonfin

/-- JS division.  Division by zero yields a non-finite value
(`0/0 = NaN`, `a/0 = ±Infinity`). -/
def jdiv : JSNum → JSNum → JSNum
  | .fin a, .fin b => if b = 0 then .nonfin else .fin (a / b)
  | _, _ => .nonfin

/-- JS `Math.sqrt`: NaN on negative input, non-finite on non-finite input. -/
def jsqrt : JSNum → JSNum
  | .fin a => if a < 0 then .nonfin else .fin (Real.sqrt a)
  | .nonfin => .nonfin

/-- JS `<` comparison: any comparison with NaN is false; both operands
finite compares the reals. -/
def jlt : JSNum → JSNum → Bool
  | .fin a, .fin b => decide (a < b)
  | _, _ => false

/-- A 3-component vector (the per-particle slice of the flat stride-3
`Float32Array` buffers). -/
structure V3 (α : Type) where
  x : α
  y : α
  z : α

instance {α : Type} : DecidableEq (V3 α) := Classical.decEq _

/-- Inject a real vector into JS-number space. -/
def finV3 (w : V3 ℝ) : V3 JSNum := ⟨.fin w.x, .fin w.y, .fin w.z⟩

/-- The position/velocity state of one particle slot. -/
structure PState where
  pos : V3 JSNum
  vel : V3 JSNum

/-- `src/types.ts`: the shape selector enum. -/
inductive ShapeType where
  | Sphere
  | Cube
  | Heart
  | Spiral
deriving DecidableEq

/-- `src/types.ts`: the gesture enum. -/
inductive HandGesture where
  | None
  | Open
  | Fist
deriving DecidableEq

/-- `src/types.ts`: the tunable particle settings.  The particle count is
a natural number (it is used only as a loop bound); the remaining fields
are finite numbers supplied by the control surface. -/
structure ParticleSettings where
  particleCount : ℕ
  forceStrength : ℝ
  interactionRadius : ℝ
  damping : ℝ
  returnSpeed : ℝ

/-- `src/types.ts`: the hand signal consumed each frame.  `x`, `y` are the
normalized palm coordinates in [0,1]. -/
structure HandData where
  x : ℝ
  y : ℝ
  gesture : HandGesture
  detected : Bool

/-- `ParticleCanvas.tsx` lines 129–138: map the normalized hand position
to world space on the z = 0 plane, for camera fov 75° at z = 60 with the
given aspect ratio. -/
def handWorld (hand : HandData) (aspect : ℝ) : V3 ℝ :=
  let vFOV := 75 * (Real.pi / 180)
  let height := 2 * Real.tan (vFOV / 2) * 60
  let width := height * aspect
  ⟨(hand.x - 0.5) * width, -(hand.y - 0.5) * height, 0⟩

/-- One iteration of the `animate` loop body of `ParticleCanvas.tsx`
(lines 140–207) for a single particle slot: spring return force toward
the target, optional hand-interaction force (repel on Open, attract on
Fist), damping, then the Euler position update.  `hw` is the world-space
hand point computed by `handWorld` before the loop. -/
def stepParticle (st : ParticleSettings) (hand : HandData) (hw : V3 ℝ)
    (tgt : V3 ℝ) (p : PState) : PState :=
  let px := p.pos.x
  let py := p.pos.y
  let pz := p.pos.z
  let vx0 := jadd p.vel.x (jmul (jsub (.fin tgt.x) px) (.fin st.returnSpeed))
  let vy0 := jadd p.vel.y (jmul (jsub (.fin tgt.y) py) (.fin st.returnSpeed))
  let vz0 := jadd p.vel.z (jmul (jsub (.fin tgt.z) pz) (.fin st.returnSpeed))
  let v1 :=
    if hand.detected then
      let dx := jsub px (.fin hw.x)
      let dy := jsub py (.fin hw.y)
      let dz := jsub pz (.fin hw.z)
      let distSq := jadd (jadd (jmul dx dx) (jmul dy dy)) (jmul dz dz)
      if jlt distSq (.fin (st.interactionRadius * st.interactionRadius)) then
        let dist := jsqrt distSq
        let nx := jdiv dx dist
        let ny := jdiv dy dist
        let nz := jdiv dz dist
        let factor := jsub (.fin 1) (jdiv dist (.fin st.interactionRadius))
        if hand.gesture = HandGesture.Open then
          let force := jmul (jmul (.fin st.forceStrength) factor) (.fin 2)
          (jadd vx0 (jmul nx force), jadd vy0 (jmul ny force),
            jadd vz0 (jmul nz force))
        else if hand.gesture = HandGesture.Fist then
          let force := jmul (jmul (.fin (-st.forceStrength)) factor) (.fin 3)
          (jadd vx0 (jmul nx force), jadd vy0 (jmul ny force),
            jadd vz0 (jmul nz force))
        else (vx0, vy0, vz0)
      else (vx0, vy0, vz0)
    else (vx0, vy0, vz0)
  let vx := jmul v1.1 (.fin st.damping)
  let vy := jmul v1.2.1 (.fin st.damping)
  let vz := jmul v1.2.2 (.fin st.damping)
  ⟨⟨jadd px vx, jadd py vy, jadd pz vz⟩, ⟨vx, vy, vz⟩⟩

/-- One full frame of the `animate` loop over the particle buffers: slots
`i < particleCount` are updated by `stepParticle`, all other slots are
left untouched (the loop never reads or writes them). -/
def animateStep (st : ParticleSettings) (hand : HandData) (aspect : ℝ)
    (targets : ℕ → V3 ℝ) (buf : ℕ → PState) : ℕ → PState :=
  fun i =>
    if i < st.particleCount then
      stepParticle st hand (handWorld hand aspect) (targets i) (buf i)
    else buf i

/-- `utils/shapes.ts` line 3. -/
def MAX_PARTICLES : ℕ := 40000

/-- The sentinel coordinate written to unused target slots
(`utils/shapes.ts` lines 100–105). -/
def sentinel : V3 ℝ := ⟨9999, 9999, 9999⟩

/-- `utils/shapes.ts` lines 18–28: uniform random point on a sphere
surface of radius `r`, from two uniform draws `u`, `v`. -/
def getPointOnSphereSurface (r u v : ℝ) : V3 ℝ :=
  let theta := 2 * Real.pi * u
  let phi := Real.arccos (2 * v - 1)
  ⟨r * Real.sin phi * Real.cos theta,
   r * Real.sin phi * Real.sin theta,
   r * Real.cos phi⟩

/-- The body of the generation loop of `generateShapePositions`
(`utils/shapes.ts` lines 33–98) for index `i < count`.  The random draws
consumed by iteration `i` are supplied explicitly as `rnd 0`, `rnd 1`,
`rnd 2` (each uniform in [0,1)).  The Spiral case first computes the
discarded 3-arm galaxy layout exactly as the source does, then overwrites
it with the single helix that is actually assigned. -/
def shapePoint (ty : ShapeType) (count : ℕ) (rnd : ℕ → ℝ) (i : ℕ) : V3 ℝ :=
  match ty with
  | .Sphere => getPointOnSphereSurface 25 (rnd 0) (rnd 1)
  | .Cube =>
      ⟨(rnd 0 - 0.5) * 35, (rnd 1 - 0.5) * 35, (rnd 2 - 0.5) * 35⟩
  | .Heart =>
      let t := rnd 0 * Real.pi * 2
      let scale := (1.2 : ℝ)
      let r := rnd 1
      let vol := Real.sqrt r
      let x := scale * 16 * (Real.sin t) ^ 3 * vol
      let y := scale * (13 * Real.cos t - 5 * Real.cos (2 * t)
        - 2 * Real.cos (3 * t) - Real.cos (4 * t)) * vol
      let z := (rnd 2 - 0.5) * 10 * vol
      ⟨x, y + 5, z⟩
  | .Spiral =>
      let _angle := (i : ℝ) * 0.1
      let _radius := (i : ℝ) * 0.005
      let _height := ((i : ℝ) / (count : ℝ)) * 60 - 30
      let arm := i % 3
      let spin := (i : ℝ) * 0.002
      let r := 2 + ((i : ℝ) / (count : ℝ)) * 30
      let _x0 := r * Real.cos (spin + (arm : ℝ) * (Real.pi * 2 / 3))
      let _y0 := (rnd 0 - 0.5) * 10
      let _z0 := r * Real.sin (spin + (arm : ℝ) * (Real.pi * 2 / 3))
      ⟨20 * Real.cos ((i : ℝ) * 0.05),
       ((i : ℝ) / (count : ℝ)) * 60 - 30,
       20 * Real.sin ((i : ℝ) * 0.05)⟩

/-- `utils/shapes.ts` lines 30–108: the generated target buffer, as a
function on slot indices (meaningful for `i < MAX_PARTICLES`, the backing
array's capacity).  Slots `i < count` get the shape point of iteration
`i`; the remaining slots get the sentinel.  `rnd i` is the random stream
consumed by iteration `i`. -/
def generateShapePositions (ty : ShapeType) (count : ℕ) (rnd : ℕ → ℕ → ℝ) :
    ℕ → V3 ℝ :=
  fun i => if i < count then shapePoint ty count (rnd i) i else sentinel

/-- A 2-D landmark point as delivered by the external hand detector. -/
structure Landmark where
  x : ℝ
  y : ℝ

/-- `HandTracker.detectGesture` (`handTracking.ts` lines 76–113): count
the fingertip landmarks 8, 12, 16, 20 whose squared distance to the wrist
(landmark 0) is below 1.5 times the squared wrist-to-middle-MCP reference
distance; at least 3 folded classifies as Fist, otherwise Open. -/
def detectGesture (lm : Fin 21 → Landmark) : HandGesture :=
  let wrist := lm 0
  let refDx := (lm 0).x - (lm 9).x
  let refDy := (lm 0).y - (lm 9).y
  let refDistSq := refDx * refDx + refDy * refDy
  let fingers : List (Fin 21) := [8, 12, 16, 20]
  let foldedCount :=
    (fingers.filter fun tipIdx =>
      let dx := (lm tipIdx).x - wrist.x
      let dy := (lm tipIdx).y - wrist.y
      decide (dx * dx + dy * dy < refDistSq * 1.5)).length
  if 3 ≤ foldedCount then HandGesture.Fist else HandGesture.Open

/-- The shape-change effect of `ParticleCanvas.tsx` lines 46–59: the
target buffer is replaced wholesale by the newly generated targets; the
live position buffer is overwritten with the targets only when the first
particle's position is exactly (0,0,0) (the code's first-load heuristic),
and is otherwise left untouched.  Returns (new targets, new positions). -/
def shapeChangeEffect (newTargets : ℕ → V3 ℝ) (positions : ℕ → V3 JSNum) :
    (ℕ → V3 ℝ) × (ℕ → V3 JSNum) :=
  (newTargets,
    if (positions 0).x = JSNum.fin 0 ∧ (positions 0).y = JSNum.fin 0 ∧
        (positions 0).z = JSNum.fin 0 then
      fun i => finV3 (newTargets i)
    else positions)

/-- The mount effect of `ParticleCanvas.tsx` lines 81–112: the position
buffer starts as a fresh all-zero array, the initial targets are
generated, and `positions.set(initialTargets)` copies them in; the
velocity buffer (line 25) starts all-zero.  Returns
(targets, positions, velocities). -/
def mountInit (initialTargets : ℕ → V3 ℝ) :
    (ℕ → V3 ℝ) × (ℕ → V3 JSNum) × (ℕ → V3 JSNum) :=
  (initialTargets, fun i => finV3 (initialTargets i), fun _ => finV3 ⟨0, 0, 0⟩)

/-- The per-frame inputs read by one `animate` call: the latest settings
and hand snapshot, the camera aspect, and the current target buffer. -/
structure Frame where
  st : ParticleSettings
  hand : HandData
  aspect : ℝ
  targets : ℕ → V3 ℝ

/-- Run a sequence of `animate` frames over the particle buffers. -/
def stepFrames (frames : List Frame) (buf : ℕ → PState) : ℕ → PState :=
  frames.foldl (fun b f => animateStep f.st f.hand f.aspect f.targets b) buf

/-- The squared distance from a particle position to the world-space hand
point, exactly as the `animate` loop computes it (`dx*dx + dy*dy + dz*dz`
in JS numbers). -/
def interDistSq (hw : V3 ℝ) (p : V3 JSNum) : JSNum :=
  jadd (jadd (jmul (jsub p.x (.fin hw.x)) (jsub p.x (.fin hw.x)))
             (jmul (jsub p.y (.fin hw.y)) (jsub p.y (.fin hw.y))))
       (jmul (jsub p.z (.fin hw.z)) (jsub p.z (.fin hw.z)))

/-- The hand-interaction force as the specification describes it: zero
with no hand detected; otherwise, for a particle at distance `d < R` from
the hand point, magnitude `fs * (1 - d/R) * 2` directed away from the
hand point on gesture Open, and magnitude `fs * (1 - d/R) * 3` directed
toward the hand point on gesture Fist. -/
def handForceSpec (fs R : ℝ) (detected : Bool) (g : HandGesture)
    (hw p : V3 ℝ) : V3 ℝ :=
  if detected then
    let d := Real.sqrt ((p.x - hw.x) ^ 2 + (p.y - hw.y) ^ 2 + (p.z - hw.z) ^ 2)
    if d < R then
      if g = HandGesture.Open then
        ⟨(p.x - hw.x) / d * (fs * (1 - d / R) * 2),
         (p.y - hw.y) / d * (fs * (1 - d / R) * 2),
         (p.z - hw.z) / d * (fs * (1 - d / R) * 2)⟩
      else if g = HandGesture.Fist then
        ⟨(hw.x - p.x) / d * (fs * (1 - d / R) * 3),
         (hw.y - p.y) / d * (fs * (1 - d / R) * 3),
         (hw.z - p.z) / d * (fs * (1 - d / R) * 3)⟩
      else ⟨0, 0, 0⟩
    else ⟨0, 0, 0⟩
  else ⟨0, 0, 0⟩

/-- The single-helix Spiral reference from the specification:
`x = 20 cos(0.05 i)`, `y = (i / requestedCount) * 60 - 30`,
`z = 20 sin(0.05 i)`. -/
def spiralSpec (c i : ℕ) : V3 ℝ :=
  ⟨20 * Real.cos ((i : ℝ) * 0.05),
   ((i : ℝ) / (c : ℝ)) * 60 - 30,
   20 * Real.sin ((i : ℝ) * 0.05)⟩

/-- Squared 2-D distance between two landmarks. -/
def dist2 (a b : Landmark) : ℝ := (a.x - b.x) ^ 2 + (a.y - b.y) ^ 2

/-- "Folded" fingertip per the specification: squared distance to the
wrist below 1.5 times the squared wrist-to-middle-MCP reference
distance. -/
def foldedSpec (lm : Fin 21 → Landmark) (t : Fin 21) : Prop :=
  dist2 (lm t) (lm 0) < 1.5 * dist2 (lm 0) (lm 9)

instance (lm : Fin 21 → Landmark) (t : Fin 21) : Decidable (foldedSpec lm t) :=
  inferInstanceAs (Decidable (dist2 (lm t) (lm 0) < 1.5 * dist2 (lm 0) (lm 9)))

/-- The number of folded fingertips among landmarks 8, 12, 16, 20, per
the specification. -/
def foldedCountSpec (lm : Fin 21 → Landmark) : ℕ :=
  (if foldedSpec lm 8 then 1 else 0) + (if foldedSpec lm 12 then 1 else 0) +
  (if foldedSpec lm 16 then 1 else 0) + (if foldedSpec lm 20 then 1 else 0)

/-- Read a JS number as a real (non-finite values read as 0; all claims
using this prove the values involved are finite). -/
def JSNum.toReal : JSNum → ℝ
  | .fin x => x
  | .nonfin => 0

/-- Aggregate squared distance between the active particles' positions
and their targets. -/
def errSq (targets : ℕ → V3 ℝ) (c : ℕ) (buf : ℕ → PState) : ℝ :=
  Finset.sum (Finset.range c) fun i =>
    ((buf i).pos.x.toReal - (targets i).x) ^ 2 +
    ((buf i).pos.y.toReal - (targets i).y) ^ 2 +
    ((buf i).pos.z.toReal - (targets i).z) ^ 2

/-- The scalar recurrence followed by every coordinate's error
(position − target, coefficient `α`) and velocity (coefficient `β`)
under the no-hand step from zero initial velocity:
`β' = damping * (β - returnSpeed * α)`, `α' = α + β'`. -/
def alphaBeta (d rs : ℝ) : ℕ → ℝ × ℝ
  | 0 => (1, 0)
  | n + 1 =>
      ((alphaBeta d rs n).1 + d * ((alphaBeta d rs n).2 - rs * (alphaBeta d rs n).1),
       d * ((alphaBeta d rs n).2 - rs * (alphaBeta d rs n).1))

@[simp] theorem jadd_fin (a b : ℝ) : jadd (.fin a) (.fin b) = .fin (a + b) := rfl

@[simp] theorem jadd_nonfin_left (b : JSNum) : jadd .nonfin b = .nonfin := rfl

@[simp] theorem jadd_nonfin_right (a : JSNum) : jadd a .nonfin = .nonfin := by
  cases a <;> rfl

@[simp] theorem jsub_fin (a b : ℝ) : jsub (.fin a) (.fin b) = .fin (a - b) := rfl

@[simp] theorem jsub_nonfin_left (b : JSNum) : jsub .nonfin b = .nonfin := rfl

@[simp] theorem jsub_nonfin_right (a : JSNum) : jsub a .nonfin = .nonfin := by
  cases a <;> rfl

@[simp] theorem jmul_fin (a b : ℝ) : jmul (.fin a) (.fin b) = .fin (a * b) := rfl

@[simp] theorem jmul_nonfin_left (b : JSNum) : jmul .nonfin b = .nonfin := rfl

@[simp] theorem jmul_nonfin_right (a : JSNum) : jmul a .nonfin = .nonfin := by
  cases a <;> rfl

@[simp] theorem jdiv_fin (a b : ℝ) :
    jdiv (.fin a) (.fin b) = if b = 0 then .nonfin else .fin (a / b) := rfl

@[simp] theorem jsqrt_fin (a : ℝ) :
    jsqrt (.fin a) = if a < 0 then .nonfin else .fin (Real.sqrt a) := rfl

@[simp] theorem jlt_fin (a b : ℝ) : jlt (.fin a) (.fin b) = decide (a < b) := rfl

@[simp] theorem jlt_nonfin_left (b : JSNum) : jlt .nonfin b = false := rfl

@[simp] theorem jlt_nonfin_right (a : JSNum) : jlt a .nonfin = false := by
  cases a <;> rfl

@[simp] theorem jadd_zero_right (v : JSNum) : jadd v (.fin 0) = v := by
  cases v <;> simp

@[simp] theorem toReal_fin (x : ℝ) : (JSNum.fin x).toReal = x := rfl

/-- With no hand detected, one particle step reduces to the pure spring
and damping update on the finite components. -/
theorem stepParticle_noHand (st : ParticleSettings) (hand : HandData)
    (hw : V3 ℝ) (tgt p v : V3 ℝ) (h : hand.detected = false) :
    stepParticle st hand hw tgt ⟨finV3 p, finV3 v⟩ =
      ⟨finV3 ⟨p.x + (v.x + (tgt.x - p.x) * st.returnSpeed) * st.damping,
              p.y + (v.y + (tgt.y - p.y) * st.returnSpeed) * st.damping,
              p.z + (v.z + (tgt.z - p.z) * st.returnSpeed) * st.damping⟩,
       finV3 ⟨(v.x + (tgt.x - p.x) * st.returnSpeed) * st.damping,
              (v.y + (tgt.y - p.y) * st.returnSpeed) * st.damping,
              (v.z + (tgt.z - p.z) * st.returnSpeed) * st.damping⟩⟩ := by
  simp [stepParticle, finV3, h]

/-- A detected hand whose gesture is `None` leaves the particle step
identical to the undetected-hand step, for arbitrary (even non-finite)
particle state. -/
theorem stepParticle_gestureNone (st : ParticleSettings) (hand hand' : HandData)
    (hw : V3 ℝ) (tgt : V3 ℝ) (p : PState)
    (hg : hand.gesture = HandGesture.None) (hd : hand'.detected = false) :
    stepParticle st hand hw tgt p = stepParticle st hand' hw tgt p := by
  unfold stepParticle
  simp only [hg, hd, if_false, Bool.false_eq_true]
  by_cases h : hand.detected = true
  · simp only [h, if_true]
    split
    · simp
    · rfl
  · simp only [Bool.not_eq_true] at h
    simp [h]

/-- Claim C1, behavior of the code at the failing input: a particle
located exactly at the mapped hand point (hand centered at (0.5, 0.5)
maps to the world origin), gesture Open, force strength 5, interaction
radius 10.  The unguarded normalization `dx / dist` divides 0 by 0 and
the particle's x-velocity after the step is non-finite. -/
theorem claim_C1_zero_distance_unguarded :
    (animateStep ⟨1, 5, 10, 1/2, 1/10⟩ ⟨0.5, 0.5, HandGesture.Open, true⟩ 1
        (fun _ => ⟨0, 0, 0⟩) (fun _ => ⟨finV3 ⟨0, 0, 0⟩, finV3 ⟨0, 0, 0⟩⟩)
        0).vel.x = JSNum.nonfin := by
  have hw : handWorld ⟨0.5, 0.5, HandGesture.Open, true⟩ 1 = ⟨0, 0, 0⟩ := by
    simp [handWorld]
  simp only [animateStep, hw]
  norm_num [stepParticle, finV3, Real.sqrt_zero]

/-- Claim C10: a detected hand with gesture `None` adds no force: the
frame is identical to the no-hand frame for every particle, and the
stepped velocity of a finite-valued particle is the finite damped spring
velocity, even at distance 0 from the hand point. -/
theorem claim_C10_gesture_none_no_force (st : ParticleSettings)
    (hand : HandData) (aspect : ℝ) (targets : ℕ → V3 ℝ) (buf : ℕ → PState)
    (i : ℕ) (p v : V3 ℝ)
    (hd : hand.detected = true) (hg : hand.gesture = HandGesture.None)
    (hbuf : buf i = ⟨finV3 p, finV3 v⟩) :
    animateStep st hand aspect targets buf =
      animateStep st ⟨hand.x, hand.y, hand.gesture, false⟩ aspect targets buf ∧
    (animateStep st hand aspect targets buf i).vel =
      (if i < st.particleCount then
        finV3 ⟨(v.x + ((targets i).x - p.x) * st.returnSpeed) * st.damping,
               (v.y + ((targets i).y - p.y) * st.returnSpeed) * st.damping,
               (v.z + ((targets i).z - p.z) * st.returnSpeed) * st.damping⟩
       else finV3 v) := by
  have hhw : handWorld ⟨hand.x, hand.y, hand.gesture, false⟩ aspect =
      handWorld hand aspect := by
    simp [handWorld]
  constructor
  · funext j
    simp only [animateStep, hhw]
    by_cases h : j < st.particleCount
    · simp only [h, if_true]
      exact stepParticle_gestureNone st hand _ _ _ _ hg rfl
    · simp [h]
  · by_cases h : i < st.particleCount
    · simp only [animateStep, h, if_true, hbuf]
      rw [stepParticle_gestureNone st hand ⟨hand.x, hand.y, hand.gesture, false⟩
        _ _ _ hg rfl]
      rw [stepParticle_noHand _ _ _ _ _ _ rfl]
    · simp [animateStep, h, hbuf]

/-- Witness for claim C10 at a concrete input: hand centered, particle at
the hand point with velocity zero, target at (1,0,0). -/
theorem claim_C10_witness :
    animateStep ⟨1, 5, 10, 1/2, 1/10⟩ ⟨0.5, 0.5, HandGesture.None, true⟩ 1
        (fun _ => ⟨1, 0, 0⟩) (fun _ => ⟨finV3 ⟨0, 0, 0⟩, finV3 ⟨0, 0, 0⟩⟩) =
      animateStep ⟨1, 5, 10, 1/2, 1/10⟩ ⟨0.5, 0.5, HandGesture.None, false⟩ 1
        (fun _ => ⟨1, 0, 0⟩) (fun _ => ⟨finV3 ⟨0, 0, 0⟩, finV3 ⟨0, 0, 0⟩⟩) ∧
    (animateStep ⟨1, 5, 10, 1/2, 1/10⟩ ⟨0.5, 0.5, HandGesture.None, true⟩ 1
        (fun _ => ⟨1, 0, 0⟩) (fun _ => ⟨finV3 ⟨0, 0, 0⟩, finV3 ⟨0, 0, 0⟩⟩)
        0).vel =
      (if 0 < (1 : ℕ) then
        finV3 ⟨(0 + ((1 : ℝ) - 0) * (1/10)) * (1/2),
               (0 + ((0 : ℝ) - 0) * (1/10)) * (1/2),
               (0 + ((0 : ℝ) - 0) * (1/10)) * (1/2)⟩
       else finV3 ⟨0, 0, 0⟩) :=
  claim_C10_gesture_none_no_force ⟨1, 5, 10, 1/2, 1/10⟩
    ⟨0.5, 0.5, HandGesture.None, true⟩ 1 (fun _ => ⟨1, 0, 0⟩)
    (fun _ => ⟨finV3 ⟨0, 0, 0⟩, finV3 ⟨0, 0, 0⟩⟩) 0 ⟨0, 0, 0⟩ ⟨0, 0, 0⟩
    rfl rfl rfl

/-- With zero force strength and a nonzero hand distance, the
hand-interaction branch contributes exactly zero and the particle step
equals the undetected-hand step. -/
theorem stepParticle_zero_force (st : ParticleSettings) (hand hand' : HandData)
    (hw : V3 ℝ) (tgt : V3 ℝ) (p : PState)
    (hfs : st.forceStrength = 0) (hd' : hand'.detected = false)
    (hd0 : interDistSq hw p.pos ≠ JSNum.fin 0) :
    stepParticle st hand hw tgt p = stepParticle st hand' hw tgt p := by
  unfold stepParticle
  simp only [hd', Bool.false_eq_true, if_false]
  by_cases hdet : hand.detected = true
  swap
  · simp only [Bool.not_eq_true] at hdet
    simp [hdet]
  simp only [hdet, if_true]
  rcases hx : p.pos.x with a | _
  rotate_left
  · simp [hx]
  rcases hy : p.pos.y with b | _
  rotate_left
  · simp [hx, hy]
  rcases hz : p.pos.z with c | _
  rotate_left
  · simp [hx, hy, hz]
  simp only [interDistSq, hx, hy, hz, jsub_fin, jmul_fin, jadd_fin,
    ne_eq, JSNum.fin.injEq] at hd0
  simp only [hx, hy, hz, jsub_fin, jmul_fin, jadd_fin, jlt_fin]
  set D := (a - hw.x) * (a - hw.x) + (b - hw.y) * (b - hw.y) +
    (c - hw.z) * (c - hw.z) with hD
  by_cases hlt : D < st.interactionRadius * st.interactionRadius
  swap
  · simp [hlt]
  simp only [decide_eq_true_eq, hlt, if_true]
  have hDnn : 0 ≤ D := by
    have := mul_self_nonneg (a - hw.x)
    have := mul_self_nonneg (b - hw.y)
    have := mul_self_nonneg (c - hw.z)
    rw [hD]; linarith
  have hDneg : ¬ D < 0 := not_lt.mpr hDnn
  have hDpos : 0 < D := lt_of_le_of_ne hDnn (Ne.symm hd0)
  have hsq : Real.sqrt D ≠ 0 := ne_of_gt (Real.sqrt_pos.mpr hDpos)
  have hR : st.interactionRadius ≠ 0 := by
    rintro h0
    rw [h0] at hlt
    simp only [mul_zero] at hlt
    exact hDneg hlt
  simp only [jsqrt_fin, hDneg, if_false, jdiv_fin, hsq, hR, jsub_fin, hfs]
  rcases hand.gesture with _ | _ | _ <;>
    simp [jmul_fin, jadd_zero_right]

/-- Claim C4 as stated is false: with zero force strength and the hand
exactly at the particle (distance 0), JS evaluates `NaN * 0 = NaN`, so
the hand-interaction step still corrupts the velocity and the result
differs from the no-hand step. -/
theorem claim_C4_counterexample :
    animateStep ⟨1, 0, 10, 1/2, 1/10⟩ ⟨0.5, 0.5, HandGesture.Open, true⟩ 1
        (fun _ => ⟨0, 0, 0⟩) (fun _ => ⟨finV3 ⟨0, 0, 0⟩, finV3 ⟨0, 0, 0⟩⟩) 0 ≠
      animateStep ⟨1, 0, 10, 1/2, 1/10⟩ ⟨0.5, 0.5, HandGesture.Open, false⟩ 1
        (fun _ => ⟨0, 0, 0⟩) (fun _ => ⟨finV3 ⟨0, 0, 0⟩, finV3 ⟨0, 0, 0⟩⟩) 0 := by
  have hw : handWorld ⟨0.5, 0.5, HandGesture.Open, true⟩ 1 = ⟨0, 0, 0⟩ := by
    simp [handWorld]
  have h1 : (animateStep ⟨1, 0, 10, 1/2, 1/10⟩ ⟨0.5, 0.5, HandGesture.Open, true⟩
      1 (fun _ => ⟨0, 0, 0⟩) (fun _ => ⟨finV3 ⟨0, 0, 0⟩, finV3 ⟨0, 0, 0⟩⟩)
      0).vel.x = JSNum.nonfin := by
    simp only [animateStep, hw]
    norm_num [stepParticle, finV3, Real.sqrt_zero]
  have h2 : (animateStep ⟨1, 0, 10, 1/2, 1/10⟩ ⟨0.5, 0.5, HandGesture.Open, false⟩
      1 (fun _ => ⟨0, 0, 0⟩) (fun _ => ⟨finV3 ⟨0, 0, 0⟩, finV3 ⟨0, 0, 0⟩⟩)
      0).vel.x = JSNum.fin 0 := by
    simp only [animateStep]
    norm_num [stepParticle, finV3]
  intro heq
  rw [heq, h2] at h1
  exact JSNum.noConfusion h1

/-- Claim C4 amended: with zero force strength and the hand at a nonzero
distance from the particle, one frame with the detected hand produces
exactly the velocity and position of the no-hand frame for that
particle. -/
theorem claim_C4_zero_strength_noop (st : ParticleSettings) (hand : HandData)
    (aspect : ℝ) (targets : ℕ → V3 ℝ) (buf : ℕ → PState) (i : ℕ)
    (hfs : st.forceStrength = 0)
    (hd0 : interDistSq (handWorld hand aspect) (buf i).pos ≠ JSNum.fin 0) :
    animateStep st hand aspect targets buf i =
      animateStep st ⟨hand.x, hand.y, hand.gesture, false⟩ aspect targets buf
        i := by
  have hhw : handWorld ⟨hand.x, hand.y, hand.gesture, false⟩ aspect =
      handWorld hand aspect := by
    simp [handWorld]
  simp only [animateStep, hhw]
  by_cases h : i < st.particleCount
  · simp only [h, if_true]
    exact stepParticle_zero_force st hand _ _ _ _ hfs rfl hd0
  · simp [h]

/-- Witness for the amended claim C4: hand centered (world origin),
particle at (3,4,0) — distance 5, inside radius 10 — zero force
strength. -/
theorem claim_C4_witness :
    animateStep ⟨1, 0, 10, 1/2, 1/10⟩ ⟨0.5, 0.5, HandGesture.Open, true⟩ 1
        (fun _ => ⟨0, 0, 0⟩) (fun _ => ⟨finV3 ⟨3, 4, 0⟩, finV3 ⟨0, 0, 0⟩⟩) 0 =
      animateStep ⟨1, 0, 10, 1/2, 1/10⟩ ⟨0.5, 0.5, HandGesture.Open, false⟩ 1
        (fun _ => ⟨0, 0, 0⟩) (fun _ => ⟨finV3 ⟨3, 4, 0⟩, finV3 ⟨0, 0, 0⟩⟩) 0 :=
  claim_C4_zero_strength_noop ⟨1, 0, 10, 1/2, 1/10⟩
    ⟨0.5, 0.5, HandGesture.Open, true⟩ 1 (fun _ => ⟨0, 0, 0⟩)
    (fun _ => ⟨finV3 ⟨3, 4, 0⟩, finV3 ⟨0, 0, 0⟩⟩) 0 rfl
    (by
      have hw : handWorld ⟨0.5, 0.5, HandGesture.Open, true⟩ 1 = ⟨0, 0, 0⟩ := by
        simp [handWorld]
      rw [hw]
      norm_num [interDistSq, finV3])

/-- The particle step on finite state realizes the specification formula
`v' = (v + (target - position) * returnSpeed + F_hand) * damping`,
`position' = position + v'`, provided the particle is not exactly at the
hand point when a hand is detected. -/
theorem stepParticle_fin_spec (st : ParticleSettings) (hand : HandData)
    (hw : V3 ℝ) (tgt : V3 ℝ) (p v : V3 ℝ)
    (hR : 0 < st.interactionRadius)
    (hd0 : hand.detected = true →
      (p.x - hw.x) ^ 2 + (p.y - hw.y) ^ 2 + (p.z - hw.z) ^ 2 ≠ 0) :
    stepParticle st hand hw tgt ⟨finV3 p, finV3 v⟩ =
      ⟨finV3 ⟨p.x + (v.x + (tgt.x - p.x) * st.returnSpeed +
                (handForceSpec st.forceStrength st.interactionRadius
                  hand.detected hand.gesture hw p).x) * st.damping,
              p.y + (v.y + (tgt.y - p.y) * st.returnSpeed +
                (handForceSpec st.forceStrength st.interactionRadius
                  hand.detected hand.gesture hw p).y) * st.damping,
              p.z + (v.z + (tgt.z - p.z) * st.returnSpeed +
                (handForceSpec st.forceStrength st.interactionRadius
                  hand.detected hand.gesture hw p).z) * st.damping⟩,
       finV3 ⟨(v.x + (tgt.x - p.x) * st.returnSpeed +
                (handForceSpec st.forceStrength st.interactionRadius
                  hand.detected hand.gesture hw p).x) * st.damping,
              (v.y + (tgt.y - p.y) * st.returnSpeed +
                (handForceSpec st.forceStrength st.interactionRadius
                  hand.detected hand.gesture hw p).y) * st.damping,
              (v.z + (tgt.z - p.z) * st.returnSpeed +
                (handForceSpec st.forceStrength st.interactionRadius
                  hand.detected hand.gesture hw p).z) * st.damping⟩⟩ := by
  by_cases hdet : hand.detected = true
  swap
  · simp only [Bool.not_eq_true] at hdet
    rw [stepParticle_noHand st hand hw tgt p v hdet]
    simp only [handForceSpec, hdet, Bool.false_eq_true, if_false, finV3,
      PState.mk.injEq, V3.mk.injEq, JSNum.fin.injEq]
    exact ⟨⟨by ring, by ring, by ring⟩, by ring, by ring, by ring⟩
  have hD0 : (p.x - hw.x) ^ 2 + (p.y - hw.y) ^ 2 + (p.z - hw.z) ^ 2 ≠ 0 :=
    hd0 hdet
  unfold stepParticle handForceSpec
  simp only [hdet, if_true, finV3, jsub_fin, jmul_fin, jadd_fin, jlt_fin]
  rw [show (p.x - hw.x) * (p.x - hw.x) + (p.y - hw.y) * (p.y - hw.y) +
      (p.z - hw.z) * (p.z - hw.z) =
      (p.x - hw.x) ^ 2 + (p.y - hw.y) ^ 2 + (p.z - hw.z) ^ 2 from by ring]
  set D := (p.x - hw.x) ^ 2 + (p.y - hw.y) ^ 2 + (p.z - hw.z) ^ 2 with hDdef
  have hDnn : 0 ≤ D := by positivity
  have hDneg : ¬ D < 0 := not_lt.mpr hDnn
  have hDpos : 0 < D := lt_of_le_of_ne hDnn (Ne.symm hD0)
  have hsq : Real.sqrt D ≠ 0 := ne_of_gt (Real.sqrt_pos.mpr hDpos)
  have hRne : st.interactionRadius ≠ 0 := ne_of_gt hR
  have hiff : Real.sqrt D < st.interactionRadius ↔
      D < st.interactionRadius * st.interactionRadius := by
    rw [Real.sqrt_lt' hR, sq]
  by_cases hlt : D < st.interactionRadius * st.interactionRadius
  swap
  · simp only [hlt, decide_eq_true_eq, if_false, hiff, jadd_fin, jmul_fin,
      PState.mk.injEq, V3.mk.injEq, JSNum.fin.injEq]
    exact ⟨⟨by ring, by ring, by ring⟩, by ring, by ring, by ring⟩
  simp only [decide_eq_true_eq, hlt, if_true, hiff, jsqrt_fin, hDneg,
    if_false, jdiv_fin, hsq, hRne, jsub_fin]
  rcases hand.gesture with _ | _ | _ <;>
    simp only [jmul_fin, jadd_fin, reduceCtorEq, if_false, if_true,
      PState.mk.injEq, V3.mk.injEq, JSNum.fin.injEq] <;>
    exact ⟨⟨by ring, by ring, by ring⟩, by ring, by ring, by ring⟩

/-- Claim C3: for every active particle, one frame computes
`v' = (v + (target - position) * returnSpeed + F_hand) * damping` and
`position' = position + v'` (explicit Euler, unit timestep), where
`F_hand` is the specification force (zero with no hand; repulsion with
factor 2.0 on Open; attraction with factor 3.0 on Fist; damping applied
after both force accumulations), provided the particle is not exactly at
the hand point when a hand is detected. -/
theorem claim_C3_step_formula (st : ParticleSettings) (hand : HandData)
    (aspect : ℝ) (targets : ℕ → V3 ℝ) (buf : ℕ → PState) (i : ℕ) (p v : V3 ℝ)
    (hi : i < st.particleCount)
    (hbuf : buf i = ⟨finV3 p, finV3 v⟩)
    (hR : 0 < st.interactionRadius)
    (hd0 : hand.detected = true →
      (p.x - (handWorld hand aspect).x) ^ 2 +
      (p.y - (handWorld hand aspect).y) ^ 2 +
      (p.z - (handWorld hand aspect).z) ^ 2 ≠ 0) :
    animateStep st hand aspect targets buf i =
      ⟨finV3 ⟨p.x + (v.x + ((targets i).x - p.x) * st.returnSpeed +
                (handForceSpec st.forceStrength st.interactionRadius
                  hand.detected hand.gesture (handWorld hand aspect) p).x) *
                st.damping,
              p.y + (v.y + ((targets i).y - p.y) * st.returnSpeed +
                (handForceSpec st.forceStrength st.interactionRadius
                  hand.detected hand.gesture (handWorld hand aspect) p).y) *
                st.damping,
              p.z + (v.z + ((targets i).z - p.z) * st.returnSpeed +
                (handForceSpec st.forceStrength st.interactionRadius
                  hand.detected hand.gesture (handWorld hand aspect) p).z) *
                st.damping⟩,
       finV3 ⟨(v.x + ((targets i).x - p.x) * st.returnSpeed +
                (handForceSpec st.forceStrength st.interactionRadius
                  hand.detected hand.gesture (handWorld hand aspect) p).x) *
                st.damping,
              (v.y + ((targets i).y - p.y) * st.returnSpeed +
                (handForceSpec st.forceStrength st.interactionRadius
                  hand.detected hand.gesture (handWorld hand aspect) p).y) *
                st.damping,
              (v.z + ((targets i).z - p.z) * st.returnSpeed +
                (handForceSpec st.forceStrength st.interactionRadius
                  hand.detected hand.gesture (handWorld hand aspect) p).z) *
                st.damping⟩⟩ := by
  simp only [animateStep, hi, if_true, hbuf]
  exact stepParticle_fin_spec st hand (handWorld hand aspect) (targets i) p v
    hR hd0

/-- Witness for claim C3: hand centered (world origin), gesture Open,
particle at (3,4,0) — distance 5, inside radius 10. -/
theorem claim_C3_witness :
    animateStep ⟨1, 1, 10, 1/2, 1/10⟩ ⟨0.5, 0.5, HandGesture.Open, true⟩ 1
        (fun _ => ⟨0, 0, 0⟩) (fun _ => ⟨finV3 ⟨3, 4, 0⟩, finV3 ⟨0, 0, 0⟩⟩) 0 =
      ⟨finV3 ⟨3 + ((0 : ℝ) + ((0 : ℝ) - 3) * (1/10) +
                (handForceSpec 1 10 true HandGesture.Open
                  (handWorld ⟨0.5, 0.5, HandGesture.Open, true⟩ 1)
                  ⟨3, 4, 0⟩).x) * (1/2),
              4 + ((0 : ℝ) + ((0 : ℝ) - 4) * (1/10) +
                (handForceSpec 1 10 true HandGesture.Open
                  (handWorld ⟨0.5, 0.5, HandGesture.Open, true⟩ 1)
                  ⟨3, 4, 0⟩).y) * (1/2),
              0 + ((0 : ℝ) + ((0 : ℝ) - 0) * (1/10) +
                (handForceSpec 1 10 true HandGesture.Open
                  (handWorld ⟨0.5, 0.5, HandGesture.Open, true⟩ 1)
                  ⟨3, 4, 0⟩).z) * (1/2)⟩,
       finV3 ⟨((0 : ℝ) + ((0 : ℝ) - 3) * (1/10) +
                (handForceSpec 1 10 true HandGesture.Open
                  (handWorld ⟨0.5, 0.5, HandGesture.Open, true⟩ 1)
                  ⟨3, 4, 0⟩).x) * (1/2),
              ((0 : ℝ) + ((0 : ℝ) - 4) * (1/10) +
                (handForceSpec 1 10 true HandGesture.Open
                  (handWorld ⟨0.5, 0.5, HandGesture.Open, true⟩ 1)
                  ⟨3, 4, 0⟩).y) * (1/2),
              ((0 : ℝ) + ((0 : ℝ) - 0) * (1/10) +
                (handForceSpec 1 10 true HandGesture.Open
                  (handWorld ⟨0.5, 0.5, HandGesture.Open, true⟩ 1)
                  ⟨3, 4, 0⟩).z) * (1/2)⟩⟩ :=
  claim_C3_step_formula ⟨1, 1, 10, 1/2, 1/10⟩ ⟨0.5, 0.5, HandGesture.Open, true⟩
    1 (fun _ => ⟨0, 0, 0⟩) (fun _ => ⟨finV3 ⟨3, 4, 0⟩, finV3 ⟨0, 0, 0⟩⟩) 0
    ⟨3, 4, 0⟩ ⟨0, 0, 0⟩ (by norm_num) rfl (by norm_num)
    (by
      intro _
      have hw : handWorld ⟨0.5, 0.5, HandGesture.Open, true⟩ 1 = ⟨0, 0, 0⟩ := by
        simp [handWorld]
      rw [hw]
      norm_num)

/-- Claim C2 as stated is false: the code detects "first load" by testing
only the FIRST particle's position against (0,0,0), not the whole buffer.
Concretely, a non-initial buffer whose slot 1 is at (1,0,0) but whose
slot 0 happens to sit exactly at the origin is snapped onto the new
targets by a shape switch, moving live particles. -/
theorem claim_C2_counterexample :
    (fun i => if i = 1 then (⟨JSNum.fin 1, JSNum.fin 0, JSNum.fin 0⟩ : V3 JSNum)
      else ⟨JSNum.fin 0, JSNum.fin 0, JSNum.fin 0⟩) 1 ≠ finV3 ⟨0, 0, 0⟩ ∧
    (shapeChangeEffect (fun _ => ⟨2, 2, 2⟩)
        (fun i => if i = 1 then (⟨JSNum.fin 1, JSNum.fin 0, JSNum.fin 0⟩ : V3 JSNum)
          else ⟨JSNum.fin 0, JSNum.fin 0, JSNum.fin 0⟩)).2 1 ≠
      (fun i => if i = 1 then (⟨JSNum.fin 1, JSNum.fin 0, JSNum.fin 0⟩ : V3 JSNum)
        else ⟨JSNum.fin 0, JSNum.fin 0, JSNum.fin 0⟩) 1 := by
  constructor
  · norm_num [finV3, V3.mk.injEq]
  · norm_num [shapeChangeEffect, finV3, V3.mk.injEq]

/-- Claim C2 amended: a shape switch always replaces the target buffer,
and snaps the position buffer onto the new targets exactly when the first
particle's position is (0,0,0) (the code's first-load heuristic), leaving
it untouched otherwise; on mount, positions are initialized to the
generated targets for every slot with zero velocities. -/
theorem claim_C2_first_point_snap (newTargets initialTargets : ℕ → V3 ℝ)
    (positions : ℕ → V3 JSNum) :
    shapeChangeEffect newTargets positions =
      (newTargets,
        if positions 0 = finV3 ⟨0, 0, 0⟩ then (fun j => finV3 (newTargets j))
        else positions) ∧
    (∀ i, (mountInit initialTargets).2.1 i =
      finV3 ((mountInit initialTargets).1 i)) ∧
    (∀ i, (mountInit initialTargets).2.2 i = finV3 ⟨0, 0, 0⟩) := by
  refine ⟨?_, fun i => rfl, fun i => rfl⟩
  have hiff : ((positions 0).x = JSNum.fin 0 ∧ (positions 0).y = JSNum.fin 0 ∧
      (positions 0).z = JSNum.fin 0) ↔ positions 0 = finV3 ⟨0, 0, 0⟩ := by
    cases h : positions 0
    simp [finV3, V3.mk.injEq]
  simp only [shapeChangeEffect, Prod.mk.injEq, true_and]
  exact if_congr hiff rfl rfl

/-- Particle slots at indices at or above every frame's active count are
bit-for-bit untouched by any sequence of frames. -/
theorem stepFrames_frozen (frames : List Frame) :
    ∀ (buf : ℕ → PState) (i : ℕ),
      (∀ f ∈ frames, f.st.particleCount ≤ i) → stepFrames frames buf i = buf i := by
  induction frames with
  | nil => intro buf i _; rfl
  | cons f fs ih =>
      intro buf i h
      have hf := h f (List.mem_cons_self f fs)
      have hfs : ∀ f' ∈ fs, f'.st.particleCount ≤ i := fun f' hf' =>
        h f' (List.mem_cons_of_mem f hf')
      show stepFrames fs (animateStep f.st f.hand f.aspect f.targets buf) i = buf i
      rw [ih _ i hfs]
      simp [animateStep, Nat.not_lt.mpr hf]

/-- Claim C8: under any sequence of frames whose active counts all stay
at or below `i`, slot `i` is bit-for-bit unchanged, and a later frame
whose active count exceeds `i` resumes updating slot `i` from its frozen
value (not from a reset one). -/
theorem claim_C8_active_count_freeze (frames : List Frame) (buf : ℕ → PState)
    (i : ℕ) (g : Frame)
    (h1 : ∀ f ∈ frames, f.st.particleCount ≤ i)
    (h2 : i < g.st.particleCount) :
    stepFrames frames buf i = buf i ∧
    animateStep g.st g.hand g.aspect g.targets (stepFrames frames buf) i =
      stepParticle g.st g.hand (handWorld g.hand g.aspect) (g.targets i)
        (buf i) := by
  have hfreeze := stepFrames_frozen frames buf i h1
  refine ⟨hfreeze, ?_⟩
  simp only [animateStep, h2, if_true, hfreeze]

/-- Witness for claim C8: one frame with active count 1 leaves slot 5
frozen; a following frame with active count 10 resumes from that frozen
value. -/
theorem claim_C8_witness :
    stepFrames [⟨⟨1, 0, 10, 1/2, 1/10⟩, ⟨0.5, 0.5, HandGesture.None, false⟩, 1,
        fun _ => ⟨0, 0, 0⟩⟩]
      (fun _ => ⟨finV3 ⟨7, 0, 0⟩, finV3 ⟨0, 0, 0⟩⟩) 5 =
      (fun _ => (⟨finV3 ⟨7, 0, 0⟩, finV3 ⟨0, 0, 0⟩⟩ : PState)) 5 ∧
    animateStep ⟨10, 0, 10, 1/2, 1/10⟩ ⟨0.5, 0.5, HandGesture.None, false⟩ 1
        (fun _ => ⟨0, 0, 0⟩)
        (stepFrames [⟨⟨1, 0, 10, 1/2, 1/10⟩, ⟨0.5, 0.5, HandGesture.None, false⟩,
            1, fun _ => ⟨0, 0, 0⟩⟩]
          (fun _ => ⟨finV3 ⟨7, 0, 0⟩, finV3 ⟨0, 0, 0⟩⟩)) 5 =
      stepParticle ⟨10, 0, 10, 1/2, 1/10⟩ ⟨0.5, 0.5, HandGesture.None, false⟩
        (handWorld ⟨0.5, 0.5, HandGesture.None, false⟩ 1) ((fun _ => (⟨0, 0, 0⟩ : V3 ℝ)) 5)
        ((fun _ => (⟨finV3 ⟨7, 0, 0⟩, finV3 ⟨0, 0, 0⟩⟩ : PState)) 5) :=
  claim_C8_active_count_freeze
    [⟨⟨1, 0, 10, 1/2, 1/10⟩, ⟨0.5, 0.5, HandGesture.None, false⟩, 1,
      fun _ => ⟨0, 0, 0⟩⟩]
    (fun _ => ⟨finV3 ⟨7, 0, 0⟩, finV3 ⟨0, 0, 0⟩⟩) 5
    ⟨⟨10, 0, 10, 1/2, 1/10⟩, ⟨0.5, 0.5, HandGesture.None, false⟩, 1,
      fun _ => ⟨0, 0, 0⟩⟩
    (by
      intro f hf
      rw [List.mem_singleton] at hf
      subst hf
      norm_num)
    (by norm_num)

/-- Every generated shape point has x-coordinate of magnitude at most 25
(sphere radius 25, cube half-side 17.5, heart scale 1.2·16, helix radius
20), given uniform draws in [0,1). -/
theorem shapePoint_x_abs_le (ty : ShapeType) (c : ℕ) (rnd : ℕ → ℝ) (i : ℕ)
    (hr : ∀ k, 0 ≤ rnd k ∧ rnd k < 1) :
    |(shapePoint ty c rnd i).x| ≤ 25 := by
  rcases ty with _ | _ | _ | _
  · simp only [shapePoint, getPointOnSphereSurface]
    have hs := Real.abs_sin_le_one (Real.arccos (2 * rnd 1 - 1))
    have hc := Real.abs_cos_le_one (2 * Real.pi * rnd 0)
    have habs : |25 * Real.sin (Real.arccos (2 * rnd 1 - 1)) *
        Real.cos (2 * Real.pi * rnd 0)| =
        25 * |Real.sin (Real.arccos (2 * rnd 1 - 1))| *
        |Real.cos (2 * Real.pi * rnd 0)| := by
      rw [abs_mul, abs_mul]
      norm_num
    rw [habs]
    nlinarith [abs_nonneg (Real.sin (Real.arccos (2 * rnd 1 - 1))),
      abs_nonneg (Real.cos (2 * Real.pi * rnd 0))]
  · simp only [shapePoint]
    have h0 := (hr 0).1
    have h1 := (hr 0).2
    rw [abs_le]
    constructor <;> nlinarith
  · simp only [shapePoint]
    have hs := Real.abs_sin_le_one (rnd 0 * Real.pi * 2)
    have hv0 := Real.sqrt_nonneg (rnd 1)
    have hv1 : Real.sqrt (rnd 1) ≤ 1 := by
      rw [show (1 : ℝ) = Real.sqrt 1 from (Real.sqrt_one).symm]
      exact Real.sqrt_le_sqrt (le_of_lt (hr 1).2)
    have hcube : |Real.sin (rnd 0 * Real.pi * 2) ^ 3| ≤ 1 := by
      rw [abs_pow]
      exact pow_le_one₀ (abs_nonneg _) hs
    have habs : |1.2 * 16 * Real.sin (rnd 0 * Real.pi * 2) ^ 3 *
        Real.sqrt (rnd 1)| =
        1.2 * 16 * |Real.sin (rnd 0 * Real.pi * 2) ^ 3| * Real.sqrt (rnd 1) := by
      rw [abs_mul, abs_mul, abs_of_nonneg hv0]
      norm_num
    rw [habs]
    nlinarith [abs_nonneg (Real.sin (rnd 0 * Real.pi * 2) ^ 3)]
  · simp only [shapePoint]
    have hc := Real.abs_cos_le_one ((i : ℝ) * 0.05)
    have habs : |20 * Real.cos ((i : ℝ) * 0.05)| =
        20 * |Real.cos ((i : ℝ) * 0.05)| := by
      rw [abs_mul]
      norm_num
    rw [habs]
    nlinarith [abs_nonneg (Real.cos ((i : ℝ) * 0.05))]

/-- A generated shape point is never the sentinel (its x-coordinate is
bounded by 25, far from 9999). -/
theorem shapePoint_ne_sentinel (ty : ShapeType) (c : ℕ) (rnd : ℕ → ℝ) (i : ℕ)
    (hr : ∀ k, 0 ≤ rnd k ∧ rnd k < 1) :
    shapePoint ty c rnd i ≠ sentinel := by
  intro h
  have hx := shapePoint_x_abs_le ty c rnd i hr
  rw [h] at hx
  simp only [sentinel] at hx
  rw [abs_le] at hx
  norm_num at hx

/-- Claim C7: for every shape and every requested count `c ≤ capacity`,
the generated buffer has exactly `c` non-sentinel slots and exactly
`capacity - c` sentinel slots. -/
theorem claim_C7_sentinel_counts (ty : ShapeType) (c : ℕ) (rnd : ℕ → ℕ → ℝ)
    (hc : c ≤ MAX_PARTICLES) (hr : ∀ i k, 0 ≤ rnd i k ∧ rnd i k < 1) :
    ((Finset.range MAX_PARTICLES).filter
        (fun i => generateShapePositions ty c rnd i ≠ sentinel)).card = c ∧
    ((Finset.range MAX_PARTICLES).filter
        (fun i => generateShapePositions ty c rnd i = sentinel)).card =
      MAX_PARTICLES - c := by
  have key : ∀ i, (generateShapePositions ty c rnd i ≠ sentinel ↔ i < c) := by
    intro i
    by_cases h : i < c
    · simp only [generateShapePositions, h, if_true, ne_eq, iff_true]
      exact shapePoint_ne_sentinel ty c (rnd i) i (hr i)
    · simp [generateShapePositions, h]
  have key' : ∀ i, (generateShapePositions ty c rnd i = sentinel ↔ ¬ i < c) := by
    intro i
    by_cases h : i < c
    · simp only [h, not_true_eq_false, iff_false]
      intro hs
      exact (key i).mpr h hs
    · simp [generateShapePositions, h]
  constructor
  · have h1 : (Finset.range MAX_PARTICLES).filter
        (fun i => generateShapePositions ty c rnd i ≠ sentinel) =
        Finset.range c := by
      ext i
      simp only [Finset.mem_filter, Finset.mem_range, key i]
      omega
    rw [h1, Finset.card_range]
  · have h2 : (Finset.range MAX_PARTICLES).filter
        (fun i => generateShapePositions ty c rnd i = sentinel) =
        Finset.range MAX_PARTICLES \ Finset.range c := by
      ext i
      simp only [Finset.mem_filter, Finset.mem_range, Finset.mem_sdiff, key' i]
    rw [h2, Finset.card_sdiff (Finset.range_subset.mpr hc),
      Finset.card_range, Finset.card_range]

/-- Witness for claim C7: sphere, requested count 1000, constant draw
stream 1/2. -/
theorem claim_C7_witness :
    ((Finset.range MAX_PARTICLES).filter
        (fun i => generateShapePositions ShapeType.Sphere 1000 (fun _ _ => 1/2) i ≠
          sentinel)).card = 1000 ∧
    ((Finset.range MAX_PARTICLES).filter
        (fun i => generateShapePositions ShapeType.Sphere 1000 (fun _ _ => 1/2) i =
          sentinel)).card = MAX_PARTICLES - 1000 :=
  claim_C7_sentinel_counts ShapeType.Sphere 1000 (fun _ _ => 1/2)
    (by norm_num [MAX_PARTICLES]) (fun _ _ => by norm_num)

/-- Claim C9: the Spiral output equals the pure single-helix reference at
every in-range index, independently of the random stream (the 3-arm
layout is computed and discarded). -/
theorem claim_C9_spiral_refinement (c i : ℕ) (rnd rnd' : ℕ → ℕ → ℝ)
    (h : i < c) :
    generateShapePositions ShapeType.Spiral c rnd i = spiralSpec c i ∧
    generateShapePositions ShapeType.Spiral c rnd i =
      generateShapePositions ShapeType.Spiral c rnd' i := by
  constructor <;> simp [generateShapePositions, h, shapePoint, spiralSpec]

/-- Witness for claim C9 at count 2, index 1, two different random
streams. -/
theorem claim_C9_witness :
    generateShapePositions ShapeType.Spiral 2 (fun _ _ => 0) 1 = spiralSpec 2 1 ∧
    generateShapePositions ShapeType.Spiral 2 (fun _ _ => 0) 1 =
      generateShapePositions ShapeType.Spiral 2 (fun _ _ => 1/2) 1 :=
  claim_C9_spiral_refinement 2 1 (fun _ _ => 0) (fun _ _ => 1/2) (by norm_num)

/-- Claim C6: the classifier counts a fingertip as folded exactly when
its squared distance to the wrist is below 1.5 times the reference
squared distance (wrist to middle-finger base), and returns Fist when at
least 3 of the 4 fingertips are folded, Open otherwise. -/
theorem claim_C6_gesture_classifier (lm : Fin 21 → Landmark) :
    detectGesture lm =
      (if 3 ≤ foldedCountSpec lm then HandGesture.Fist else HandGesture.Open) := by
  have hiff : ∀ t : Fin 21,
      (((lm t).x - (lm 0).x) * ((lm t).x - (lm 0).x) +
        ((lm t).y - (lm 0).y) * ((lm t).y - (lm 0).y) <
        (((lm 0).x - (lm 9).x) * ((lm 0).x - (lm 9).x) +
          ((lm 0).y - (lm 9).y) * ((lm 0).y - (lm 9).y)) * 1.5) ↔
      foldedSpec lm t := by
    intro t
    unfold foldedSpec dist2
    constructor <;> intro h <;> nlinarith [h]
  have hdec : ∀ t : Fin 21,
      decide (((lm t).x - (lm 0).x) * ((lm t).x - (lm 0).x) +
        ((lm t).y - (lm 0).y) * ((lm t).y - (lm 0).y) <
        (((lm 0).x - (lm 9).x) * ((lm 0).x - (lm 9).x) +
          ((lm 0).y - (lm 9).y) * ((lm 0).y - (lm 9).y)) * 1.5) =
      decide (foldedSpec lm t) :=
    fun t => decide_eq_decide.mpr (hiff t)
  unfold detectGesture foldedCountSpec
  simp only [hdec]
  by_cases f8 : foldedSpec lm 8 <;> by_cases f12 : foldedSpec lm 12 <;>
    by_cases f16 : foldedSpec lm 16 <;> by_cases f20 : foldedSpec lm 20 <;>
    simp [f8, f12, f16, f20, List.filter]

/-- One step of the scalar recurrence preserves the invariant
`0 < α`, `β ≤ 0`, `0 ≤ 2 d rs α + (1-d) β`, and strictly decreases `α`,
under `0 < d < 1`, `0 < rs`, and the smallness bound
`2 d (1+d) rs ≤ (1-d)²`. -/
theorem alphaBeta_step (d rs α β : ℝ) (hd0 : 0 < d) (hd1 : d < 1) (hrs : 0 < rs)
    (H : 2 * d * (1 + d) * rs ≤ (1 - d) ^ 2)
    (hα : 0 < α) (hβ : β ≤ 0) (hinv : 0 ≤ 2 * d * rs * α + (1 - d) * β) :
    0 < α + d * (β - rs * α) ∧ d * (β - rs * α) ≤ 0 ∧
    0 ≤ 2 * d * rs * (α + d * (β - rs * α)) + (1 - d) * (d * (β - rs * α)) ∧
    α + d * (β - rs * α) < α := by
  have h1d : 0 < 1 - d := by linarith
  have hco : 0 ≤ 2 * d * rs + 1 - d := by nlinarith
  refine ⟨?_, ?_, ?_, ?_⟩
  · nlinarith [mul_nonneg hd0.le hinv, mul_pos hα h1d,
      mul_pos (mul_pos hd0 hrs) hα]
  · nlinarith [mul_pos (mul_pos hd0 hrs) hα]
  · nlinarith [mul_nonneg (mul_nonneg hd0.le hco) hinv,
      mul_nonneg (mul_nonneg (mul_pos hd0 hrs).le hα.le)
        (sub_nonneg.mpr H)]
  · nlinarith [mul_pos (mul_pos hd0 hrs) hα]

/-- The invariant of `alphaBeta_step` holds at every index. -/
theorem alphaBeta_invariant (d rs : ℝ) (hd0 : 0 < d) (hd1 : d < 1)
    (hrs : 0 < rs) (H : 2 * d * (1 + d) * rs ≤ (1 - d) ^ 2) :
    ∀ n, 0 < (alphaBeta d rs n).1 ∧ (alphaBeta d rs n).2 ≤ 0 ∧
      0 ≤ 2 * d * rs * (alphaBeta d rs n).1 + (1 - d) * (alphaBeta d rs n).2 := by
  intro n
  induction n with
  | zero =>
      refine ⟨one_pos, le_refl 0, ?_⟩
      simp only [alphaBeta]
      nlinarith [mul_pos (mul_pos hd0 hrs) one_pos]
  | succ n ih =>
      obtain ⟨hα, hβ, hinv⟩ := ih
      obtain ⟨h1, h2, h3, _⟩ := alphaBeta_step d rs (alphaBeta d rs n).1
        (alphaBeta d rs n).2 hd0 hd1 hrs H hα hβ hinv
      exact ⟨h1, h2, h3⟩

/-- `α` strictly decreases at every index. -/
theorem alphaBeta_strict_dec (d rs : ℝ) (hd0 : 0 < d) (hd1 : d < 1)
    (hrs : 0 < rs) (H : 2 * d * (1 + d) * rs ≤ (1 - d) ^ 2) (n : ℕ) :
    0 < (alphaBeta d rs (n + 1)).1 ∧
    (alphaBeta d rs (n + 1)).1 < (alphaBeta d rs n).1 := by
  obtain ⟨hα, hβ, hinv⟩ := alphaBeta_invariant d rs hd0 hd1 hrs H n
  obtain ⟨h1, _, _, h4⟩ := alphaBeta_step d rs (alphaBeta d rs n).1
    (alphaBeta d rs n).2 hd0 hd1 hrs H hα hβ hinv
  exact ⟨h1, h4⟩

/-- Closed form of the iterated no-hand frame: every active coordinate's
error scales by `αₙ` and its velocity by `βₙ`, for zero initial
velocities. -/
theorem animate_noHand_closed_form (st : ParticleSettings) (hand : HandData)
    (aspect : ℝ) (targets : ℕ → V3 ℝ) (p0 : ℕ → V3 ℝ)
    (hdet : hand.detected = false) (i : ℕ) (hi : i < st.particleCount) :
    ∀ n, (animateStep st hand aspect targets)^[n]
        (fun j => ⟨finV3 (p0 j), finV3 ⟨0, 0, 0⟩⟩) i =
      ⟨finV3 ⟨(targets i).x + (alphaBeta st.damping st.returnSpeed n).1 *
                ((p0 i).x - (targets i).x),
              (targets i).y + (alphaBeta st.damping st.returnSpeed n).1 *
                ((p0 i).y - (targets i).y),
              (targets i).z + (alphaBeta st.damping st.returnSpeed n).1 *
                ((p0 i).z - (targets i).z)⟩,
       finV3 ⟨(alphaBeta st.damping st.returnSpeed n).2 *
                ((p0 i).x - (targets i).x),
              (alphaBeta st.damping st.returnSpeed n).2 *
                ((p0 i).y - (targets i).y),
              (alphaBeta st.damping st.returnSpeed n).2 *
                ((p0 i).z - (targets i).z)⟩⟩ := by
  intro n
  induction n with
  | zero =>
      simp only [Function.iterate_zero, id_eq, alphaBeta, PState.mk.injEq,
        finV3, V3.mk.injEq, JSNum.fin.injEq]
      exact ⟨⟨by ring, by ring, by ring⟩, by ring, by ring, by ring⟩
  | succ n ih =>
      rw [Function.iterate_succ_apply']
      simp only [animateStep, hi, if_true]
      rw [ih, stepParticle_noHand st hand _ _ _ _ hdet]
      simp only [alphaBeta, PState.mk.injEq, finV3, V3.mk.injEq,
        JSNum.fin.injEq]
      exact ⟨⟨by ring, by ring, by ring⟩, by ring, by ring, by ring⟩

/-- The aggregate squared error of the iterated no-hand frame is
`αₙ² ·` the initial aggregate squared error. -/
theorem errSq_closed_form (st : ParticleSettings) (hand : HandData)
    (aspect : ℝ) (targets : ℕ → V3 ℝ) (p0 : ℕ → V3 ℝ)
    (hdet : hand.detected = false) (n : ℕ) :
    errSq targets st.particleCount
        ((animateStep st hand aspect targets)^[n]
          (fun j => ⟨finV3 (p0 j), finV3 ⟨0, 0, 0⟩⟩)) =
      (alphaBeta st.damping st.returnSpeed n).1 ^ 2 *
        errSq targets st.particleCount
          (fun j => ⟨finV3 (p0 j), finV3 ⟨0, 0, 0⟩⟩) := by
  unfold errSq
  rw [Finset.mul_sum]
  refine Finset.sum_congr rfl ?_
  intro i hi
  rw [Finset.mem_range] at hi
  rw [animate_noHand_closed_form st hand aspect targets p0 hdet i hi n]
  simp only [finV3, toReal_fin]
  ring

/-- Claim C5: with no hand detected, `0 < damping < 1`, positive return
speed small enough that `2·damping·(1+damping)·returnSpeed ≤ (1-damping)²`,
zero initial velocities, and initial positions not all exactly on their
targets, every step strictly decreases the aggregate squared distance
between the active particles' positions and their targets. -/
theorem claim_C5_monotone_convergence (st : ParticleSettings) (hand : HandData)
    (aspect : ℝ) (targets : ℕ → V3 ℝ) (p0 : ℕ → V3 ℝ)
    (hdet : hand.detected = false)
    (hd0 : 0 < st.damping) (hd1 : st.damping < 1) (hrs : 0 < st.returnSpeed)
    (hsmall : 2 * st.damping * (1 + st.damping) * st.returnSpeed ≤
      (1 - st.damping) ^ 2)
    (hfar : 0 < errSq targets st.particleCount
      (fun j => ⟨finV3 (p0 j), finV3 ⟨0, 0, 0⟩⟩))
    (n : ℕ) :
    errSq targets st.particleCount
        ((animateStep st hand aspect targets)^[n + 1]
          (fun j => ⟨finV3 (p0 j), finV3 ⟨0, 0, 0⟩⟩)) <
      errSq targets st.particleCount
        ((animateStep st hand aspect targets)^[n]
          (fun j => ⟨finV3 (p0 j), finV3 ⟨0, 0, 0⟩⟩)) := by
  rw [errSq_closed_form st hand aspect targets p0 hdet (n + 1),
    errSq_closed_form st hand aspect targets p0 hdet n]
  obtain ⟨hpos, hdec⟩ := alphaBeta_strict_dec st.damping st.returnSpeed hd0 hd1
    hrs hsmall n
  have hsq : (alphaBeta st.damping st.returnSpeed (n + 1)).1 ^ 2 <
      (alphaBeta st.damping st.returnSpeed n).1 ^ 2 := by nlinarith
  nlinarith [hfar, hsq]

/-- Witness for claim C5: one particle at (1,0,0), target at the origin,
damping 1/2, return speed 1/10, first step. -/
theorem claim_C5_witness :
    errSq (fun _ => ⟨0, 0, 0⟩) 1
        ((animateStep ⟨1, 0, 10, 1/2, 1/10⟩ ⟨0.5, 0.5, HandGesture.None, false⟩
            1 (fun _ => ⟨0, 0, 0⟩))^[0 + 1]
          (fun _ => ⟨finV3 ⟨1, 0, 0⟩, finV3 ⟨0, 0, 0⟩⟩)) <
      errSq (fun _ => ⟨0, 0, 0⟩) 1
        ((animateStep ⟨1, 0, 10, 1/2, 1/10⟩ ⟨0.5, 0.5, HandGesture.None, false⟩
            1 (fun _ => ⟨0, 0, 0⟩))^[0]
          (fun _ => ⟨finV3 ⟨1, 0, 0⟩, finV3 ⟨0, 0, 0⟩⟩)) :=
  claim_C5_monotone_convergence ⟨1, 0, 10, 1/2, 1/10⟩
    ⟨0.5, 0.5, HandGesture.None, false⟩ 1 (fun _ => ⟨0, 0, 0⟩)
    (fun _ => ⟨1, 0, 0⟩) rfl (by norm_num) (by norm_num) (by norm_num)
    (by norm_num)
    (by simp [errSq, Finset.sum_range_one, finV3])
    0

end OppHand
